import Mathlib

/-!
Shallow embedding of `src/hotspot/share/opto/parse3.cpp` (field access and
array allocation lowering of the C2 parser) and proofs about it.

The emitted IR is modelled as a trace of events appended to an explicit
parser state `PS` (abstract operand stack, a small heap for load/store
forwarding on one path, per-path flags, and the terminated bit).
-/

namespace Parse3

/-- Java basic types as used by `ciField::layout_type` in the source. -/
inductive BasicType
  | T_BOOLEAN | T_CHAR | T_FLOAT | T_DOUBLE | T_BYTE | T_SHORT | T_INT | T_LONG
  | T_OBJECT | T_ARRAY | T_VALUETYPE | T_VALUETYPEPTR
  deriving Repr, DecidableEq

/-- Stack width of a basic type (`type2size` in the source): 2 slots for
long and double, 1 otherwise. -/
def type2size : BasicType → Nat
  | .T_DOUBLE => 2
  | .T_LONG => 2
  | _ => 1

/-- Memory ordering of a load or store (`MemNode::MemOrd`). -/
inductive MemOrd
  | unordered | acquire | release
  deriving Repr, DecidableEq

/-- Memory barrier opcodes emitted by this file (`Op_MemBarVolatile`,
`Op_MemBarAcquire`, `Op_MemBarRelease`). -/
inductive MemBarOp
  | volatileBar | acquireBar | releaseBar
  deriving Repr, DecidableEq

/-- Deoptimization reasons used by the source file. -/
inductive DeoptReason
  | unhandled | uninitialized | unloaded | nullCheck
  deriving Repr, DecidableEq

/-- Deoptimization recovery actions used by the source file
(`Action_none`, `Action_reinterpret`). -/
inductive DeoptAction
  | noAct | reinterpret
  deriving Repr, DecidableEq

/-- IR value nodes, at the granularity the claims need: the provably-null
constant, the class-mirror constant used as the container of static fields,
a stack half slot for double-width values, opaque object references,
value-type (composite) nodes and their projected fields, array allocations,
opaque load results, int constants, opaque non-constant ints, double-typed
values carried as a dyadic pair (significand, exponent), and other opaque
primitives. -/
inductive Node
  | nullCon
  | mirror
  | halfSlot
  | oop (id : Nat)
  | vt (id : Nat)
  | vtField (id : Nat) (off : Nat)
  | arrayObj (id : Nat)
  | load (id : Nat)
  | intCon (n : Int)
  | intVar (id : Nat)
  | dbl (m : Int) (e : Int)
  | prim (id : Nat)
  deriving Repr, DecidableEq

/-- `Node::is_ValueType` : the node is a composite value-type node. -/
def Node.isValueType : Node → Bool
  | .vt _ => true
  | _ => false

/-- `AllocateNode::Ideal_allocation(obj) != NULL` : the node is a fresh
allocation (the only allocations this embedding produces are arrays). -/
def Node.isAllocation : Node → Bool
  | .arrayObj _ => true
  | _ => false

/-- The node's type is provably non-null in the lattice. -/
def Node.provablyNonNull : Node → Bool
  | .vt _ => true
  | .vtField _ _ => false
  | .arrayObj _ => true
  | .mirror => true
  | _ => false

/-- Result type of a load, at the granularity used by `do_get_xxx`:
`TypeInstPtr::BOTTOM` for an unloaded field type, `TypePtr::NULL_PTR` or a
constant-oop singleton for static constants, a class-derived oop type with
an optional non-null join, or a basic type. -/
inductive LType
  | bottomInst
  | nullPtr
  | constOopNonNull
  | fromKlass (notNull : Bool)
  | basic (bt : BasicType)
  deriving Repr, DecidableEq

/-- Refined type of a multianewarray result after the out-of-line call:
nullability, exactness, the array-size range installed by `cast_to_size`
(if any), and whether nested element types were sharpened (the source
never sharpens them; see the comment at line 563). -/
structure AryType where
  notNull : Bool
  exact : Bool
  size : Option (Int × Int)
  elemSharpened : Bool
  deriving Repr, DecidableEq

/-- The refined type carries a known (singleton) array size. -/
def AryType.hasKnownSize (t : AryType) : Bool :=
  match t.size with
  | some (lo, hi) => lo == hi
  | none => false

/-- One emitted IR construct or parser action, in emission order. -/
inductive Event
  | trap (r : DeoptReason) (a : DeoptAction)
  | memBar (op : MemBarOp)
  | loadScalar (bt : BasicType) (ty : LType) (mo : MemOrd) (atomic : Bool)
  | loadFlattened (off : Nat)
  | storeScalar (bt : BasicType) (mo : MemOrd) (val : Node) (atomic : Bool)
  | storeOop (bt : BasicType) (fty : LType) (mo : MemOrd) (val : Node)
  | storeFlattened (val : Node) (off : Nat)
  | storeOopToArray (mo : MemOrd) (val : Node)
  | nullCheckEv (n : Node)
  | addrComp (off : Nat)
  | allocArray (len : Node)
  | runtimeCall (rank : Nat)
  | slowCallEx
  | castResult (ty : AryType)
  | setBci (n : Nat)
  | nullAssertEv (n : Node)
  | killDeadLocals
  deriving Repr, DecidableEq

/-- Parser state threaded through the lowering routines: emitted events,
the abstract operand stack (top first), a per-path memory for
load-after-store forwarding, a fresh-node counter, the terminated bit and
the per-path flags recorded by `do_put_xxx`. -/
structure PS where
  events : List Event
  stack : List Node
  heap : List ((Node × Nat) × Node)
  nextId : Nat
  stopped : Bool
  wroteVolatile : Bool
  wroteFields : Bool
  wroteFinal : Bool
  wroteStable : Bool
  allocWithFinal : Option Node
  deriving Repr, DecidableEq

/-- Initial live state with a given operand stack. -/
def PS.init (stk : List Node) : PS :=
  ⟨[], stk, [], 0, false, false, false, false, false, none⟩

/-- Append one emitted event. -/
def PS.emit (s : PS) (e : Event) : PS :=
  { s with events := s.events ++ [e] }

/-- Push one node on the operand stack. -/
def PS.push (s : PS) (n : Node) : PS :=
  { s with stack := n :: s.stack }

/-- Push a double-width value: the value and its top half slot
(`push_pair` in the source). -/
def PS.pushPair (s : PS) (n : Node) : PS :=
  { s with stack := Node.halfSlot :: n :: s.stack }

/-- Pop the top node (the caller guarantees the stack is deep enough). -/
def PS.pop (s : PS) : Node × PS :=
  (s.stack.headD (Node.prim 0), { s with stack := s.stack.tail })

/-- Pop a double-width value: drop the half slot, return the value
(`pop_pair` in the source). -/
def PS.popPair (s : PS) : Node × PS :=
  let s1 := s.pop.2
  (s1.stack.headD (Node.prim 0), { s1 with stack := s1.stack.tail })

/-- Peek at a given stack depth without popping. -/
def PS.peek (s : PS) (d : Nat) : Node :=
  s.stack.getD d (Node.prim 0)

/-- Read the per-path memory at a field address. -/
def PS.heapGet (s : PS) (k : Node × Nat) : Option Node :=
  (s.heap.find? (fun p => p.1 = k)).map (fun p => p.2)

/-- Write the per-path memory at a field address. -/
def PS.heapSet (s : PS) (k : Node × Nat) (v : Node) : PS :=
  { s with heap := (k, v) :: s.heap }

/-- Draw a fresh node id. -/
def PS.fresh (s : PS) : Nat × PS :=
  (s.nextId, { s with nextId := s.nextId + 1 })

/-- Mark the path terminated (`stopped()` becomes true). -/
def PS.stop (s : PS) : PS :=
  { s with stopped := true }

/-- `GraphKit::uncommon_trap` : emit the trap and terminate the path. -/
def uncommon_trap (r : DeoptReason) (a : DeoptAction) (s : PS) : PS :=
  (s.emit (.trap r a)).stop

/-- `GraphKit::null_check` on the receiver: emits the check; if the value
is provably null the path is terminated at compile time. -/
def null_check (n : Node) (s : PS) : PS :=
  let s := s.emit (.nullCheckEv n)
  if n = Node.nullCon then s.stop else s

/-- `push_node(bt, n)` : single or double width push according to the type. -/
def push_node (bt : BasicType) (n : Node) (s : PS) : PS :=
  if type2size bt = 1 then s.push n else s.pushPair n

/-- A resolved field descriptor (`ciField`), with the metadata queries the
source makes about it folded in as fields: flags, layout type, byte offset,
holder's class state, whether the declared type is loaded, and the
constant-folding oracle `make_constant_from_field` (external, line 173). -/
structure CiField where
  isStatic : Bool
  isVolatile : Bool
  isFinal : Bool
  isStable : Bool
  isFlattened : Bool
  isFlattenable : Bool
  isCallSiteTarget : Bool
  isConstant : Bool
  isStaticConstant : Bool
  staticConstIsNull : Bool
  mirrorValNonNull : Bool
  typeIsLoaded : Bool
  layoutType : BasicType
  offset : Nat
  holderIsValuetype : Bool
  holderIsInitialized : Bool
  constFold : Option Node
  deriving Repr, DecidableEq

/-- The compiled method (`ciMethod`), relative to the accessed field's
holder: static-ness, whether its name is the class initializer name
`<clinit>` or the object initializer name `<init>`, whether its holder is
a subclass (reflexively) of the field holder, and whether its holder IS
the field holder (the last is used only to state claim C1's relation). -/
structure CiMethod where
  isStatic : Bool
  isClassInitializerName : Bool
  isObjectInitializerName : Bool
  holderIsSubclassOfFieldHolder : Bool
  holderEqFieldHolder : Bool
  deriving Repr, DecidableEq

/-- Platform and flag configuration consumed by the source:
`support_IRIW_for_not_multiple_copy_atomic_cpu`, `AlwaysAtomicAccesses`,
`MultiArrayExpandLimit`, and the iterator's current and next bci. -/
structure Config where
  supportIRIW : Bool
  alwaysAtomicAccesses : Bool
  multiArrayExpandLimit : Int
  curBci : Nat
  nextBci : Nat
  deriving Repr, DecidableEq

/-- `Parse::static_field_ok_in_clinit` (lines 45-79): access is OK when the
method's holder is a subclass of the field holder and the method is a
static method named `<clinit>`, or a non-static method named `<init>`. -/
def static_field_ok_in_clinit (_field : CiField) (method : CiMethod) : Bool :=
  if method.holderIsSubclassOfFieldHolder then
    if method.isStatic then
      method.isClassInitializerName
    else
      method.isObjectInitializerName
  else false

/-- Truncate a significand to below 2^53 by dropping low-order bits. -/
def truncMant (n : Nat) (e : Int) : Nat × Int :=
  if n < 2 ^ 53 then (n, e)
  else truncMant (n / 2) (e + 1)
termination_by n
decreasing_by
  exact Nat.div_lt_self (by omega) (by omega)

/-- Modelled from the spec: `GraphKit::dstore_rounding` is not under
`src/`; the spec says doubles are rounded to canonical form before
storing and that this rounding is idempotent. Canonical form is modelled
as a dyadic value whose significand magnitude fits in the 53 bits of a
double; rounding truncates excess low-order significand bits. Non-double
nodes are unchanged. -/
def dstore_rounding : Node → Node
  | .dbl m e =>
    let p := truncMant m.natAbs e
    .dbl (if m < 0 then -(p.1 : Int) else (p.1 : Int)) p.2
  | n => n

/-- Modelled from the spec: `StoreNode::release_if_reference` (memnode.hpp,
not under `src/`); the spec says a non-volatile store is release-ordered
exactly when the stored width is a reference. -/
def release_if_reference (bt : BasicType) : MemOrd :=
  if bt = .T_OBJECT || bt = .T_ARRAY || bt = .T_VALUETYPE || bt = .T_VALUETYPEPTR then
    .release
  else .unordered

/-- The result type of the load built by `do_get_xxx` (lines 190-223). -/
def loadResultType (field : CiField) : LType :=
  let bt := field.layoutType
  if bt = .T_OBJECT || bt = .T_VALUETYPE then
    if !field.typeIsLoaded then .bottomInst
    else if field.isStaticConstant then
      if field.staticConstIsNull then .nullPtr else .constOopNonNull
    else .fromKlass (bt = .T_VALUETYPE && field.isStatic && field.mirrorValNonNull)
  else .basic bt

/-- `must_assert_null` is set exactly in the unloaded-object-type branch
of the result-type computation (lines 193-197). -/
def mustAssertNull (field : CiField) : Bool :=
  (field.layoutType = .T_OBJECT || field.layoutType = .T_VALUETYPE)
    && !field.typeIsLoaded

/-- Tail of `do_get_xxx` after the push (lines 251-281): the deferred null
assert performed at the next bci with the current bci restored after, and
the trailing acquire barrier for a volatile field. -/
def get_finish (cfg : Config) (field : CiField) (s : PS) : PS :=
  let s :=
    if mustAssertNull field then
      (((s.emit (.setBci cfg.nextBci)).emit (.nullAssertEv (s.peek 0))).emit
        (.setBci cfg.curBci))
    else s
  if field.isVolatile then s.emit (.memBar .acquireBar) else s

/-- `Parse::do_get_xxx` (lines 161-282): constant folding for
final/stable fields; address computation; result-type derivation with the
deferred null assertion for unloaded field types; the conditional IRIW
barrier before a volatile load; the acquire-or-unordered load (flattened
fields load a composite instead); the stack push; the deferred null
assert at the next bci; and the trailing acquire barrier for volatiles. -/
def do_get_xxx (cfg : Config) (obj : Node) (field : CiField) (_is_field : Bool) (s : PS) : PS :=
  let bt := field.layoutType
  let folded : Option Node :=
    if field.isConstant && (!(bt = .T_OBJECT) || field.typeIsLoaded) then
      field.constFold
    else none
  match folded with
  | some con => push_node bt con s
  | none =>
    let offset := field.offset
    let s := s.emit (.addrComp offset)
    let ty := loadResultType field
    let s := if cfg.supportIRIW && field.isVolatile then s.emit (.memBar .volatileBar) else s
    let mo : MemOrd := if field.isVolatile then .acquire else .unordered
    let atomic := field.isVolatile || cfg.alwaysAtomicAccesses
    if field.isFlattened then
      let p := s.fresh
      let s := p.2.emit (.loadFlattened offset)
      get_finish cfg field (push_node bt (Node.vt p.1) s)
    else
      let bt2 := if bt = .T_VALUETYPE && !field.isFlattenable then BasicType.T_VALUETYPEPTR else bt
      match s.heapGet (obj, offset) with
      | some v =>
        get_finish cfg field (push_node bt2 v (s.emit (.loadScalar bt2 ty mo atomic)))
      | none =>
        let p := s.fresh
        get_finish cfg field
          (push_node bt2 (Node.load p.1) (p.2.emit (.loadScalar bt2 ty mo atomic)))

/-- Tail of `do_put_xxx` after the store (lines 345-384): the trailing
fat barrier for a volatile write (skipped when the IRIW pre-barrier
configuration covers it), and the per-path wrote-volatile / wrote-fields /
wrote-final / wrote-stable flags with the final-field allocation record. -/
def put_finish (cfg : Config) (obj : Node) (field : CiField) (is_field : Bool) (s : PS) : PS :=
  let s :=
    if field.isVolatile then
      let s := if !cfg.supportIRIW then s.emit (.memBar .volatileBar) else s
      if is_field then { s with wroteVolatile := true } else s
    else s
  let s := if is_field then { s with wroteFields := true } else s
  if is_field && (field.isFinal || field.isStable) then
    let s := if field.isFinal then { s with wroteFinal := true } else s
    let s := if field.isStable then { s with wroteStable := true } else s
    if field.isFinal && obj.isAllocation then { s with allocWithFinal := some obj } else s
  else s

/-- `Parse::do_put_xxx` (lines 284-384): release barrier before address
computation for volatiles; popping and double rounding of the value; the
release-or-reference-release-or-unordered store ordering; the defensive
trap for a flattenable field written with a non-composite value; the
scalar / oop / flattened store; then `put_finish`. -/
def do_put_xxx (cfg : Config) (obj : Node) (field : CiField) (is_field : Bool) (s : PS) : PS :=
  let s := if field.isVolatile then s.emit (.memBar .releaseBar) else s
  let offset := field.offset
  let s := s.emit (.addrComp offset)
  let bt := field.layoutType
  let vp : Node × PS := if type2size bt = 1 then s.pop else s.popPair
  let val := if bt = .T_DOUBLE then dstore_rounding vp.1 else vp.1
  let s := vp.2
  let mo : MemOrd := if field.isVolatile then .release else release_if_reference bt
  if bt = .T_OBJECT || bt = .T_VALUETYPE then
    let fty : LType := if !field.typeIsLoaded then .bottomInst else .fromKlass false
    if field.isFlattenable && !val.isValueType then
      uncommon_trap .nullCheck .noAct (s.push .nullCon)
    else if field.isFlattened then
      put_finish cfg obj field is_field (s.emit (.storeFlattened val offset))
    else
      put_finish cfg obj field is_field
        ((s.emit (.storeOop bt fty mo val)).heapSet (obj, offset) val)
  else
    let atomic := field.isVolatile || cfg.alwaysAtomicAccesses
    put_finish cfg obj field is_field
      ((s.emit (.storeScalar bt mo val atomic)).heapSet (obj, offset) val)

/-- `Parse::do_field_access` (lines 82-159): the value-type-holder read
path, the static/instance kind-mismatch trap, the uninitialized-holder
trap guarded by `static_field_ok_in_clinit`, the call-site-target put
trap, the receiver null check for instance accesses (receiver popped
before a get, after a put), and the mirror container for static accesses. -/
def do_field_access (cfg : Config) (is_get is_field : Bool) (field : CiField)
    (method : CiMethod) (s : PS) : PS :=
  if is_field && field.holderIsValuetype then
    let vp := s.pop
    match vp.1 with
    | .vt i => push_node field.layoutType (Node.vtField i field.offset) vp.2
    | _ => vp.2
  else if is_field = field.isStatic then
    uncommon_trap .unhandled .noAct s
  else if !is_field && !field.holderIsInitialized
      && !static_field_ok_in_clinit field method then
    uncommon_trap .uninitialized .reinterpret s
  else if !is_get && field.isCallSiteTarget then
    uncommon_trap .unhandled .reinterpret s
  else if is_field then
    let objDepth := if is_get then 0 else type2size field.layoutType
    let obj := s.peek objDepth
    let s := null_check obj s
    if s.stopped then s
    else if is_get then
      do_get_xxx cfg obj field true s.pop.2
    else
      let s := do_put_xxx cfg obj field true s
      if s.stopped then s else s.pop.2
  else
    let obj := Node.mirror
    if is_get then do_get_xxx cfg obj field false s
    else do_put_xxx cfg obj field false s

/-- The array class resolved by `do_newarray` (`ciArrayKlass`): whether it
is loaded, whether its element class exists and is a value type, and
whether that value class is initialized. -/
structure ArrayKlassDesc where
  isLoaded : Bool
  elemIsValuetype : Bool
  elemVtInitialized : Bool
  deriving Repr, DecidableEq

/-- `Parse::do_newarray` (lines 388-420): trap on an unloaded array class,
trap on an uninitialized value-type element class, otherwise narrow
liveness, pop the length, allocate and push. -/
def do_newarray (ak : ArrayKlassDesc) (s : PS) : PS :=
  if !ak.isLoaded then
    uncommon_trap .unloaded .reinterpret s
  else if ak.elemIsValuetype && !ak.elemVtInitialized then
    uncommon_trap .uninitialized .reinterpret s
  else
    let s := s.emit .killDeadLocals
    let cp := s.pop
    let ip := cp.2.fresh
    let s := ip.2.emit (.allocArray cp.1)
    s.push (Node.arrayObj ip.1)

/-- `find_int_con(n, default)` : the constant value of an int node, or the
default when the node is not a constant. -/
def find_int_con (n : Node) (dflt : Int) : Int :=
  match n with
  | .intCon c => c
  | _ => dflt

/-- `_gvn.find_int_type(n)` : the `TypeInt` range of an int-typed node — a
singleton for a constant, the full jint range for a non-constant int,
nothing for nodes of other types. -/
def nodeIntRange : Node → Option (Int × Int)
  | .intCon c => some (c, c)
  | .intVar _ => some (-(2 ^ 31), 2 ^ 31 - 1)
  | _ => none

/-- The heuristic loop of `do_multianewarray` (lines 480-490) over the
non-innermost dimension lengths: running fanout (product of the constant
sizes seen so far) and running count of predicted sub-allocations; any
non-positive or non-constant dimension, any dimension above the limit, or
a running count above the limit zeroes the count and stops.
The source computes in `jint`; the decision it reaches is the same with
unbounded integers, because a surviving iteration keeps every quantity at
most the limit (at most 100), and an iteration whose `jint` arithmetic
could overflow necessarily has `dim_con > limit` and is zeroed anyway. -/
def expandLoop (limit : Int) : List Node → Int → Int → Int
  | [], count, _ => count
  | d :: rest, count, fanout =>
    let dc := find_int_con d (-1)
    let fanout2 := fanout * dc
    let count2 := count + fanout2
    if dc ≤ 0 ∨ limit < dc ∨ limit < count2 then 0
    else expandLoop limit rest count2 fanout2

/-- `expand_limit = MIN2((int)MultiArrayExpandLimit, 100)` (line 477). -/
def expand_limit (cfg : Config) : Int :=
  min cfg.multiArrayExpandLimit 100

/-- The inline-expansion decision of `do_multianewarray` (line 494): one
dimension, or an expansion count between 1 and the limit. The lengths are
outermost first; the loop visits all of them except the innermost. -/
def multianewarrayInline (cfg : Config) (nd : Nat) (lens : List Node) : Bool :=
  nd == 1 ||
    (let ec := expandLoop (expand_limit cfg) (lens.take (nd - 1)) 1 1
     decide (1 ≤ ec) && decide (ec ≤ expand_limit cfg))

/-- `Parse::expand_multianewarray` (lines 435-454): allocate the array for
the leading length; for an inner nest, unroll the (constant) length and
recursively allocate and store each sub-array with an unordered oop store.
The `guarantee(length_con >= 0)` of the source is modelled by returning
without expansion on a negative constant (the inline decision never sends
such a nest here). -/
def expand_multianewarray : List Node → PS → Node × PS
  | [], s => (Node.prim 0, s)
  | len :: rest, s =>
    let ip := s.fresh
    let arr := Node.arrayObj ip.1
    let s := ip.2.emit (.allocArray len)
    match rest with
    | [] => (arr, s)
    | r :: rs =>
      let lc := find_int_con len (-1)
      if lc < 0 then (arr, s)
      else
        let s := (List.range lc.toNat).foldl
          (fun s _ =>
            let ep := expand_multianewarray (r :: rs) s
            ep.2.emit (.storeOopToArray .unordered ep.1)) s
        (arr, s)
termination_by l => l.length
decreasing_by
  simp only [List.length_cons]
  omega

/-- `Parse::do_multianewarray` (lines 456-571): narrow liveness, pop the
rank-many lengths (outermost ends up first), decide inline expansion
against the limit; otherwise call the rank-specialized runtime entry for
ranks 2-5 or materialize a length array and call the generic entry, attach
the exceptional exit, and push the result refined to a non-null exact
array type carrying the outermost length's range as its size. -/
def do_multianewarray (cfg : Config) (nd : Nat) (s : PS) : PS :=
  let s := s.emit .killDeadLocals
  let lens := (s.stack.take nd).reverse
  let s := { s with stack := s.stack.drop nd }
  if multianewarrayInline cfg nd lens then
    let ep := expand_multianewarray lens s
    ep.2.push ep.1
  else
    let s :=
      if 2 ≤ nd && nd ≤ 5 then
        s.emit (.runtimeCall nd)
      else
        let ip := s.fresh
        let s := ip.2.emit (.allocArray (Node.intCon nd))
        let s := lens.foldl
          (fun s l => s.emit (.storeScalar .T_INT .unordered l false)) s
        s.emit (.runtimeCall 0)
    let s := s.emit .slowCallEx
    let rp := s.fresh
    let s := rp.2
    let ty0 : AryType := ⟨true, true, none, false⟩
    let ty : AryType :=
      match nodeIntRange (lens.headD (Node.prim 0)) with
      | some r => { ty0 with size := some r }
      | none => ty0
    let s := s.emit (.castResult ty)
    s.push (Node.arrayObj rp.1)

/-- The event is a trap with the given reason. -/
def Event.isTrapR (r : DeoptReason) : Event → Bool
  | .trap r2 _ => r2 == r
  | _ => false

/-- The trace contains a trap with the given reason. -/
def hasTrapR (r : DeoptReason) (evs : List Event) : Bool :=
  evs.any (Event.isTrapR r)

/-- The event is a load node (scalar or flattened composite). -/
def Event.isLoad : Event → Bool
  | .loadScalar _ _ _ _ => true
  | .loadFlattened _ => true
  | _ => false

/-- The event is a store node (scalar, oop, flattened, or array element). -/
def Event.isStore : Event → Bool
  | .storeScalar _ _ _ _ => true
  | .storeOop _ _ _ _ => true
  | .storeFlattened _ _ => true
  | .storeOopToArray _ _ => true
  | _ => false

/-- The event is an address computation (`basic_plus_adr`). -/
def Event.isAddrComp : Event → Bool
  | .addrComp _ => true
  | _ => false

/-- The event is a memory barrier with the given opcode. -/
def Event.isMemBar (op : MemBarOp) : Event → Bool
  | .memBar o => o == op
  | _ => false

/-- The event is a receiver null check. -/
def Event.isNullCheck : Event → Bool
  | .nullCheckEv _ => true
  | _ => false

/-- The event is an out-of-line runtime call. -/
def Event.isRuntimeCall : Event → Bool
  | .runtimeCall _ => true
  | _ => false

/-- Number of out-of-line runtime calls in the trace. -/
def countRuntimeCalls (evs : List Event) : Nat :=
  (evs.filter Event.isRuntimeCall).length

/-- The ranks of the runtime entry points called, in order. -/
def runtimeCallRanks (evs : List Event) : List Nat :=
  evs.filterMap (fun e => match e with | .runtimeCall r => some r | _ => none)

/-- Memory orderings of the scalar loads in the trace, in order. -/
def loadMos (evs : List Event) : List MemOrd :=
  evs.filterMap (fun e => match e with | .loadScalar _ _ mo _ => some mo | _ => none)

/-- Result types of the scalar loads in the trace, in order. -/
def loadTys (evs : List Event) : List LType :=
  evs.filterMap (fun e => match e with | .loadScalar _ ty _ _ => some ty | _ => none)

/-- Memory orderings of the field stores in the trace, in order. -/
def storeMos (evs : List Event) : List MemOrd :=
  evs.filterMap (fun e =>
    match e with
    | .storeScalar _ mo _ _ => some mo
    | .storeOop _ _ mo _ => some mo
    | _ => none)

/-- Values written by the field stores in the trace, in order. -/
def storeVals (evs : List Event) : List Node :=
  evs.filterMap (fun e =>
    match e with
    | .storeScalar _ _ v _ => some v
    | .storeOop _ _ _ v => some v
    | .storeFlattened v _ => some v
    | _ => none)

/-- The refined result types installed by `CheckCastPP`, in order. -/
def castTypes (evs : List Event) : List AryType :=
  evs.filterMap (fun e => match e with | .castResult t => some t | _ => none)

/-- The part of the trace strictly after the first event satisfying `p`. -/
def afterFirst (p : Event → Bool) (evs : List Event) : List Event :=
  (evs.dropWhile (fun e => !p e)).drop 1

/-- The part of the trace strictly before the first event satisfying `p`. -/
def beforeFirst (p : Event → Bool) (evs : List Event) : List Event :=
  evs.takeWhile (fun e => !p e)

/-- An acquire barrier occurs after the (first) load. -/
def acquireAfterLoad (evs : List Event) : Bool :=
  (afterFirst Event.isLoad evs).any (Event.isMemBar .acquireBar)

/-- A release barrier occurs before the (first) address computation. -/
def releaseBeforeAddr (evs : List Event) : Bool :=
  (beforeFirst Event.isAddrComp evs).any (Event.isMemBar .releaseBar)

/-- A fat (volatile) barrier occurs after the (first) store. -/
def fatBarAfterStore (evs : List Event) : Bool :=
  (afterFirst Event.isStore evs).any (Event.isMemBar .volatileBar)

/-- A receiver null check occurs before the (first) address computation,
and there is a null check at all. -/
def nullCheckBeforeAddr (evs : List Event) : Bool :=
  (beforeFirst Event.isAddrComp evs).any Event.isNullCheck

/-- The trace starts with bci set to `next`, a null assert, and bci set
back to `cur`. -/
def headIsAssertSeq (next cur : Nat) : List Event → Bool
  | .setBci a :: .nullAssertEv _ :: .setBci b :: _ => a == next && b == cur
  | _ => false

/-- Somewhere in the trace: bci set to `next`, a null assert performed
there, and bci restored to `cur` immediately after. -/
def hasAssertSeq (next cur : Nat) : List Event → Bool
  | [] => false
  | e :: rest => headIsAssertSeq next cur (e :: rest) || hasAssertSeq next cur rest

/-- Number of null asserts in the trace. -/
def countNullAsserts (evs : List Event) : Nat :=
  (evs.filter (fun e => match e with | .nullAssertEv _ => true | _ => false)).length

@[simp] theorem events_init (stk : List Node) : (PS.init stk).events = [] := rfl

@[simp] theorem stack_init (stk : List Node) : (PS.init stk).stack = stk := rfl

@[simp] theorem heap_init (stk : List Node) : (PS.init stk).heap = [] := rfl

@[simp] theorem stopped_init (stk : List Node) : (PS.init stk).stopped = false := rfl

@[simp] theorem wroteVolatile_init (stk : List Node) : (PS.init stk).wroteVolatile = false := rfl

@[simp] theorem wroteFields_init (stk : List Node) : (PS.init stk).wroteFields = false := rfl

@[simp] theorem wroteFinal_init (stk : List Node) : (PS.init stk).wroteFinal = false := rfl

@[simp] theorem wroteStable_init (stk : List Node) : (PS.init stk).wroteStable = false := rfl

@[simp] theorem allocWithFinal_init (stk : List Node) : (PS.init stk).allocWithFinal = none := rfl

@[simp] theorem events_emit (s : PS) (e : Event) : (s.emit e).events = s.events ++ [e] := rfl

@[simp] theorem stack_emit (s : PS) (e : Event) : (s.emit e).stack = s.stack := rfl

@[simp] theorem heap_emit (s : PS) (e : Event) : (s.emit e).heap = s.heap := rfl

@[simp] theorem stopped_emit (s : PS) (e : Event) : (s.emit e).stopped = s.stopped := rfl

@[simp] theorem wroteVolatile_emit (s : PS) (e : Event) : (s.emit e).wroteVolatile = s.wroteVolatile := rfl

@[simp] theorem wroteFields_emit (s : PS) (e : Event) : (s.emit e).wroteFields = s.wroteFields := rfl

@[simp] theorem wroteFinal_emit (s : PS) (e : Event) : (s.emit e).wroteFinal = s.wroteFinal := rfl

@[simp] theorem wroteStable_emit (s : PS) (e : Event) : (s.emit e).wroteStable = s.wroteStable := rfl

@[simp] theorem allocWithFinal_emit (s : PS) (e : Event) : (s.emit e).allocWithFinal = s.allocWithFinal := rfl

@[simp] theorem events_push (s : PS) (n : Node) : (s.push n).events = s.events := rfl

@[simp] theorem stack_push (s : PS) (n : Node) : (s.push n).stack = n :: s.stack := rfl

@[simp] theorem heap_push (s : PS) (n : Node) : (s.push n).heap = s.heap := rfl

@[simp] theorem stopped_push (s : PS) (n : Node) : (s.push n).stopped = s.stopped := rfl

@[simp] theorem wroteVolatile_push (s : PS) (n : Node) : (s.push n).wroteVolatile = s.wroteVolatile := rfl

@[simp] theorem wroteFields_push (s : PS) (n : Node) : (s.push n).wroteFields = s.wroteFields := rfl

@[simp] theorem wroteFinal_push (s : PS) (n : Node) : (s.push n).wroteFinal = s.wroteFinal := rfl

@[simp] theorem wroteStable_push (s : PS) (n : Node) : (s.push n).wroteStable = s.wroteStable := rfl

@[simp] theorem allocWithFinal_push (s : PS) (n : Node) : (s.push n).allocWithFinal = s.allocWithFinal := rfl

@[simp] theorem events_pushPair (s : PS) (n : Node) : (s.pushPair n).events = s.events := rfl

@[simp] theorem stack_pushPair (s : PS) (n : Node) : (s.pushPair n).stack = Node.halfSlot :: n :: s.stack := rfl

@[simp] theorem heap_pushPair (s : PS) (n : Node) : (s.pushPair n).heap = s.heap := rfl

@[simp] theorem stopped_pushPair (s : PS) (n : Node) : (s.pushPair n).stopped = s.stopped := rfl

@[simp] theorem wroteVolatile_pushPair (s : PS) (n : Node) : (s.pushPair n).wroteVolatile = s.wroteVolatile := rfl

@[simp] theorem wroteFields_pushPair (s : PS) (n : Node) : (s.pushPair n).wroteFields = s.wroteFields := rfl

@[simp] theorem wroteFinal_pushPair (s : PS) (n : Node) : (s.pushPair n).wroteFinal = s.wroteFinal := rfl

@[simp] theorem wroteStable_pushPair (s : PS) (n : Node) : (s.pushPair n).wroteStable = s.wroteStable := rfl

@[simp] theorem allocWithFinal_pushPair (s : PS) (n : Node) : (s.pushPair n).allocWithFinal = s.allocWithFinal := rfl

@[simp] theorem events_pop (s : PS) : s.pop.2.events = s.events := rfl

@[simp] theorem stack_pop (s : PS) : s.pop.2.stack = s.stack.tail := rfl

@[simp] theorem heap_pop (s : PS) : s.pop.2.heap = s.heap := rfl

@[simp] theorem stopped_pop (s : PS) : s.pop.2.stopped = s.stopped := rfl

@[simp] theorem wroteVolatile_pop (s : PS) : s.pop.2.wroteVolatile = s.wroteVolatile := rfl

@[simp] theorem wroteFields_pop (s : PS) : s.pop.2.wroteFields = s.wroteFields := rfl

@[simp] theorem wroteFinal_pop (s : PS) : s.pop.2.wroteFinal = s.wroteFinal := rfl

@[simp] theorem wroteStable_pop (s : PS) : s.pop.2.wroteStable = s.wroteStable := rfl

@[simp] theorem allocWithFinal_pop (s : PS) : s.pop.2.allocWithFinal = s.allocWithFinal := rfl

@[simp] theorem events_popPair (s : PS) : s.popPair.2.events = s.events := rfl

@[simp] theorem stack_popPair (s : PS) : s.popPair.2.stack = s.stack.tail.tail := rfl

@[simp] theorem heap_popPair (s : PS) : s.popPair.2.heap = s.heap := rfl

@[simp] theorem stopped_popPair (s : PS) : s.popPair.2.stopped = s.stopped := rfl

@[simp] theorem wroteVolatile_popPair (s : PS) : s.popPair.2.wroteVolatile = s.wroteVolatile := rfl

@[simp] theorem wroteFields_popPair (s : PS) : s.popPair.2.wroteFields = s.wroteFields := rfl

@[simp] theorem wroteFinal_popPair (s : PS) : s.popPair.2.wroteFinal = s.wroteFinal := rfl

@[simp] theorem wroteStable_popPair (s : PS) : s.popPair.2.wroteStable = s.wroteStable := rfl

@[simp] theorem allocWithFinal_popPair (s : PS) : s.popPair.2.allocWithFinal = s.allocWithFinal := rfl

@[simp] theorem events_heapSet (s : PS) (k : Node × Nat) (v : Node) : (s.heapSet k v).events = s.events := rfl

@[simp] theorem stack_heapSet (s : PS) (k : Node × Nat) (v : Node) : (s.heapSet k v).stack = s.stack := rfl

@[simp] theorem heap_heapSet (s : PS) (k : Node × Nat) (v : Node) : (s.heapSet k v).heap = (k, v) :: s.heap := rfl

@[simp] theorem stopped_heapSet (s : PS) (k : Node × Nat) (v : Node) : (s.heapSet k v).stopped = s.stopped := rfl

@[simp] theorem wroteVolatile_heapSet (s : PS) (k : Node × Nat) (v : Node) : (s.heapSet k v).wroteVolatile = s.wroteVolatile := rfl

@[simp] theorem wroteFields_heapSet (s : PS) (k : Node × Nat) (v : Node) : (s.heapSet k v).wroteFields = s.wroteFields := rfl

@[simp] theorem wroteFinal_heapSet (s : PS) (k : Node × Nat) (v : Node) : (s.heapSet k v).wroteFinal = s.wroteFinal := rfl

@[simp] theorem wroteStable_heapSet (s : PS) (k : Node × Nat) (v : Node) : (s.heapSet k v).wroteStable = s.wroteStable := rfl

@[simp] theorem allocWithFinal_heapSet (s : PS) (k : Node × Nat) (v : Node) : (s.heapSet k v).allocWithFinal = s.allocWithFinal := rfl

@[simp] theorem events_fresh (s : PS) : s.fresh.2.events = s.events := rfl

@[simp] theorem stack_fresh (s : PS) : s.fresh.2.stack = s.stack := rfl

@[simp] theorem heap_fresh (s : PS) : s.fresh.2.heap = s.heap := rfl

@[simp] theorem stopped_fresh (s : PS) : s.fresh.2.stopped = s.stopped := rfl

@[simp] theorem wroteVolatile_fresh (s : PS) : s.fresh.2.wroteVolatile = s.wroteVolatile := rfl

@[simp] theorem wroteFields_fresh (s : PS) : s.fresh.2.wroteFields = s.wroteFields := rfl

@[simp] theorem wroteFinal_fresh (s : PS) : s.fresh.2.wroteFinal = s.wroteFinal := rfl

@[simp] theorem wroteStable_fresh (s : PS) : s.fresh.2.wroteStable = s.wroteStable := rfl

@[simp] theorem allocWithFinal_fresh (s : PS) : s.fresh.2.allocWithFinal = s.allocWithFinal := rfl

@[simp] theorem events_stop (s : PS) : s.stop.events = s.events := rfl

@[simp] theorem stack_stop (s : PS) : s.stop.stack = s.stack := rfl

@[simp] theorem heap_stop (s : PS) : s.stop.heap = s.heap := rfl

@[simp] theorem stopped_stop (s : PS) : s.stop.stopped = true := rfl

@[simp] theorem wroteVolatile_stop (s : PS) : s.stop.wroteVolatile = s.wroteVolatile := rfl

@[simp] theorem wroteFields_stop (s : PS) : s.stop.wroteFields = s.wroteFields := rfl

@[simp] theorem wroteFinal_stop (s : PS) : s.stop.wroteFinal = s.wroteFinal := rfl

@[simp] theorem wroteStable_stop (s : PS) : s.stop.wroteStable = s.wroteStable := rfl

@[simp] theorem allocWithFinal_stop (s : PS) : s.stop.allocWithFinal = s.allocWithFinal := rfl

@[simp] theorem pop_fst (s : PS) : s.pop.1 = s.stack.headD (Node.prim 0) := rfl

@[simp] theorem popPair_fst (s : PS) : s.popPair.1 = s.stack.tail.headD (Node.prim 0) := rfl

@[simp] theorem fresh_fst (s : PS) : s.fresh.1 = s.nextId := rfl

@[simp] theorem nextId_init (stk : List Node) : (PS.init stk).nextId = 0 := rfl

@[simp] theorem nextId_emit (s : PS) (e : Event) : (s.emit e).nextId = s.nextId := rfl

@[simp] theorem nextId_push (s : PS) (n : Node) : (s.push n).nextId = s.nextId := rfl

@[simp] theorem nextId_pop (s : PS) : s.pop.2.nextId = s.nextId := rfl

@[simp] theorem nextId_popPair (s : PS) : s.popPair.2.nextId = s.nextId := rfl

@[simp] theorem nextId_fresh (s : PS) : s.fresh.2.nextId = s.nextId + 1 := rfl

@[simp] theorem heapGet_emit (s : PS) (e : Event) (k : Node × Nat) :
    (s.emit e).heapGet k = s.heapGet k := rfl

@[simp] theorem heapGet_push (s : PS) (n : Node) (k : Node × Nat) :
    (s.push n).heapGet k = s.heapGet k := rfl

@[simp] theorem heapGet_pop (s : PS) (k : Node × Nat) : s.pop.2.heapGet k = s.heapGet k := rfl

@[simp] theorem heapGet_popPair (s : PS) (k : Node × Nat) :
    s.popPair.2.heapGet k = s.heapGet k := rfl

@[simp] theorem heapGet_fresh (s : PS) (k : Node × Nat) : s.fresh.2.heapGet k = s.heapGet k := rfl

@[simp] theorem heapGet_heapSet_same (s : PS) (k : Node × Nat) (v : Node) :
    (s.heapSet k v).heapGet k = some v := by
  simp [PS.heapGet, PS.heapSet, List.find?]

@[simp] theorem events_push_node (bt : BasicType) (n : Node) (s : PS) :
    (push_node bt n s).events = s.events := by
  unfold push_node
  split <;> simp

@[simp] theorem stopped_push_node (bt : BasicType) (n : Node) (s : PS) :
    (push_node bt n s).stopped = s.stopped := by
  unfold push_node
  split <;> simp

@[simp] theorem heap_push_node (bt : BasicType) (n : Node) (s : PS) :
    (push_node bt n s).heap = s.heap := by
  unfold push_node
  split <;> simp

@[simp] theorem hasTrapR_append (r : DeoptReason) (a b : List Event) :
    hasTrapR r (a ++ b) = (hasTrapR r a || hasTrapR r b) := by
  simp [hasTrapR]

@[simp] theorem hasTrapR_nil (r : DeoptReason) : hasTrapR r [] = false := rfl

@[simp] theorem hasTrapR_cons (r : DeoptReason) (e : Event) (l : List Event) :
    hasTrapR r (e :: l) = (Event.isTrapR r e || hasTrapR r l) := by
  simp [hasTrapR]

@[simp] theorem hasTrapR_ite (r : DeoptReason) (c : Prop) [Decidable c] (a b : List Event) :
    hasTrapR r (if c then a else b) = if c then hasTrapR r a else hasTrapR r b := by
  split <;> rfl

/-- The events appended by `get_finish`: the deferred null-assert triple
when the field type was unloaded, then the acquire barrier for volatiles. -/
@[simp] theorem get_finish_events (cfg : Config) (field : CiField) (s : PS) :
    (get_finish cfg field s).events =
      (s.events ++
        (if mustAssertNull field then
          [.setBci cfg.nextBci, .nullAssertEv (s.peek 0), .setBci cfg.curBci]
         else []))
        ++ (if field.isVolatile then [.memBar .acquireBar] else []) := by
  unfold get_finish
  split <;> split <;> simp

@[simp] theorem get_finish_stack (cfg : Config) (field : CiField) (s : PS) :
    (get_finish cfg field s).stack = s.stack := by
  unfold get_finish
  split <;> split <;> simp

@[simp] theorem get_finish_stopped (cfg : Config) (field : CiField) (s : PS) :
    (get_finish cfg field s).stopped = s.stopped := by
  unfold get_finish
  split <;> split <;> simp

/-- The events appended by `put_finish`: exactly the trailing fat barrier,
present for a volatile write on a platform without the IRIW pre-barrier. -/
@[simp] theorem put_finish_events (cfg : Config) (obj : Node) (field : CiField)
    (isf : Bool) (s : PS) :
    (put_finish cfg obj field isf s).events =
      s.events ++
        (if field.isVolatile && !cfg.supportIRIW then [.memBar .volatileBar] else []) := by
  unfold put_finish
  repeat' split
  all_goals simp_all

@[simp] theorem put_finish_stack (cfg : Config) (obj : Node) (field : CiField)
    (isf : Bool) (s : PS) :
    (put_finish cfg obj field isf s).stack = s.stack := by
  unfold put_finish
  repeat' split
  all_goals simp_all

@[simp] theorem put_finish_stopped (cfg : Config) (obj : Node) (field : CiField)
    (isf : Bool) (s : PS) :
    (put_finish cfg obj field isf s).stopped = s.stopped := by
  unfold put_finish
  repeat' split
  all_goals simp_all

/-- The wrote-volatile flag after `put_finish`: set exactly when the write
was volatile AND the access was an instance-field access. -/
@[simp] theorem put_finish_wroteVolatile (cfg : Config) (obj : Node) (field : CiField)
    (isf : Bool) (s : PS) :
    (put_finish cfg obj field isf s).wroteVolatile =
      ((field.isVolatile && isf) || s.wroteVolatile) := by
  unfold put_finish
  repeat' split
  all_goals simp_all

/-- No branch of `do_get_xxx` emits an uninitialized-class trap. -/
theorem do_get_xxx_no_uninit_trap (cfg : Config) (obj : Node) (field : CiField)
    (isf : Bool) (s : PS) :
    hasTrapR .uninitialized (do_get_xxx cfg obj field isf s).events
      = hasTrapR .uninitialized s.events := by
  rw [do_get_xxx]
  repeat' split
  all_goals cases hh : s.heapGet (obj, field.offset)
  all_goals simp [hh, Event.isTrapR]

/-- No branch of `do_put_xxx` emits an uninitialized-class trap. -/
theorem do_put_xxx_no_uninit_trap (cfg : Config) (obj : Node) (field : CiField)
    (isf : Bool) (s : PS) :
    hasTrapR .uninitialized (do_put_xxx cfg obj field isf s).events
      = hasTrapR .uninitialized s.events := by
  rw [do_put_xxx]
  repeat' split
  all_goals simp [uncommon_trap, Event.isTrapR]

/-- A sample platform configuration: no IRIW pre-barriers, no forced
atomic accesses, default expansion limit 100, current bci 10, next 13. -/
def cfgA : Config := ⟨false, false, 100, 10, 13⟩

/-- The accessing-method relation exactly as claim C1 words it: the
current method is the owning class's OWN static initializer, or an
instance constructor of the owning class or one of its subclasses. -/
def claimC1Relation (m : CiMethod) : Bool :=
  (m.holderEqFieldHolder && m.isStatic && m.isClassInitializerName)
    || (m.holderIsSubclassOfFieldHolder && !m.isStatic && m.isObjectInitializerName)

/-- A static, non-volatile, plain int field whose holder class is not yet
initialized. -/
def fldC1 : CiField :=
  ⟨true, false, false, false, false, false, false, false, false, false, false,
    true, .T_INT, 12, false, false, none⟩

/-- The static initializer `<clinit>` of a STRICT subclass of the field
holder: a static method with the class-initializer name whose holder is a
subclass of, but not equal to, the field holder. -/
def mC1 : CiMethod := ⟨true, true, false, true, false⟩

/-- C1 counterexample: a static get of a field of an uninitialized class
from the `<clinit>` of a strict subclass of the owner. The claim's
relation ("the owning class's own static initializer, or a constructor of
the class or a subclass") does NOT hold, so the claim predicts an
"uninitialized" trap; the code's `static_field_ok_in_clinit` also accepts
a subclass's `<clinit>` (source comment, line 46), so no trap is emitted.
The claimed equivalence is therefore false at this input. -/
theorem c1_counterexample :
    ¬(hasTrapR .uninitialized
        (do_field_access cfgA true false fldC1 mC1 (PS.init [])).events = true
      ↔ claimC1Relation mC1 = false) := by
  decide

/-- C1 (amended): for a static field access with the owning class not yet
initialized, the "uninitialized"/"reinterpret" trap is emitted — and then
nothing else, no load and no store, with the path terminated — if and
only if the current method fails `static_field_ok_in_clinit`, i.e. is
neither a static initializer of the owning class OR OF A SUBCLASS, nor an
instance constructor of the owning class or a subclass; when the relation
holds (or the class is initialized) no uninitialized trap is ever
emitted. -/
theorem c1_static_uninitialized_guard (cfg : Config) (is_get : Bool) (field : CiField)
    (method : CiMethod) (stk : List Node) (hs : field.isStatic = true) :
    (hasTrapR .uninitialized
        (do_field_access cfg is_get false field method (PS.init stk)).events = true
      ↔ (field.holderIsInitialized = false
          ∧ static_field_ok_in_clinit field method = false))
    ∧ (field.holderIsInitialized = false → static_field_ok_in_clinit field method = false →
        (do_field_access cfg is_get false field method (PS.init stk)).events
            = [Event.trap .uninitialized .reinterpret]
          ∧ (do_field_access cfg is_get false field method (PS.init stk)).stopped = true
          ∧ (do_field_access cfg is_get false field method (PS.init stk)).events.any
              Event.isLoad = false
          ∧ (do_field_access cfg is_get false field method (PS.init stk)).events.any
              Event.isStore = false) := by
  have hget := do_get_xxx_no_uninit_trap cfg Node.mirror field false (PS.init stk)
  have hput := do_put_xxx_no_uninit_trap cfg Node.mirror field false (PS.init stk)
  cases hInit : field.holderIsInitialized <;>
    cases hok : static_field_ok_in_clinit field method <;>
      cases hg : is_get <;>
        cases hcs : field.isCallSiteTarget <;>
          simp_all [do_field_access, uncommon_trap, Event.isTrapR, Event.isLoad, Event.isStore]

/-- Closed witness for `c1_static_uninitialized_guard`, at a static get of
`fldC1` (uninitialized holder) from a subclass `<clinit>`. -/
theorem c1_static_uninitialized_guard_witness :
    fldC1.isStatic = true
    ∧ ((hasTrapR .uninitialized
          (do_field_access cfgA true false fldC1 mC1 (PS.init [])).events = true
        ↔ (fldC1.holderIsInitialized = false
            ∧ static_field_ok_in_clinit fldC1 mC1 = false))
      ∧ (fldC1.holderIsInitialized = false → static_field_ok_in_clinit fldC1 mC1 = false →
          (do_field_access cfgA true false fldC1 mC1 (PS.init [])).events
              = [Event.trap .uninitialized .reinterpret]
            ∧ (do_field_access cfgA true false fldC1 mC1 (PS.init [])).stopped = true
            ∧ (do_field_access cfgA true false fldC1 mC1 (PS.init [])).events.any
                Event.isLoad = false
            ∧ (do_field_access cfgA true false fldC1 mC1 (PS.init [])).events.any
                Event.isStore = false)) :=
  ⟨rfl, c1_static_uninitialized_guard cfgA true fldC1 mC1 [] rfl⟩

@[simp] theorem heapGet_init (stk : List Node) (k : Node × Nat) :
    (PS.init stk).heapGet k = none := rfl

@[simp] theorem events_pop_ite (c : Prop) [Decidable c] (s : PS) :
    (if c then s.pop else s.popPair).2.events = s.events := by
  split <;> simp

@[simp] theorem stopped_pop_ite (c : Prop) [Decidable c] (s : PS) :
    (if c then s.pop else s.popPair).2.stopped = s.stopped := by
  split <;> simp

@[simp] theorem heap_pop_ite (c : Prop) [Decidable c] (s : PS) :
    (if c then s.pop else s.popPair).2.heap = s.heap := by
  split <;> simp

@[simp] theorem stack_pop_ite (c : Prop) [Decidable c] (s : PS) :
    (if c then s.pop else s.popPair).2.stack
      = (if c then s.stack.tail else s.stack.tail.tail) := by
  split <;> simp

@[simp] theorem wroteVolatile_pop_ite (c : Prop) [Decidable c] (s : PS) :
    (if c then s.pop else s.popPair).2.wroteVolatile = s.wroteVolatile := by
  split <;> simp

@[simp] theorem fst_pop_ite (c : Prop) [Decidable c] (s : PS) :
    (if c then s.pop else s.popPair).1
      = (if c then s.stack.headD (Node.prim 0) else s.stack.tail.headD (Node.prim 0)) := by
  split <;> simp

/-- C2 (confirmed): a volatile get loads with acquire ordering and is
followed by an acquire barrier; a volatile put emits a release barrier
before the address computation and stores with release ordering; a
non-volatile get loads unordered, and a non-volatile put stores unordered
unless the stored type is a reference, in which case it stores with
release ordering (`release_if_reference`). Stated on the paths that
actually emit a load/store: no constant folding, not a flattened field,
and not the flattenable-store trap path. -/
theorem c2_volatile_ordering (cfg : Config) (obj : Node) (field : CiField) (isf : Bool)
    (stk : List Node) (hc : field.isConstant = false) (hfl : field.isFlattened = false)
    (hfa : field.isFlattenable = false) :
    loadMos (do_get_xxx cfg obj field isf (PS.init stk)).events
        = [if field.isVolatile = true then MemOrd.acquire else MemOrd.unordered]
    ∧ (field.isVolatile = true →
        acquireAfterLoad (do_get_xxx cfg obj field isf (PS.init stk)).events = true)
    ∧ storeMos (do_put_xxx cfg obj field isf (PS.init stk)).events
        = [if field.isVolatile = true then MemOrd.release
           else release_if_reference field.layoutType]
    ∧ (field.isVolatile = true →
        releaseBeforeAddr (do_put_xxx cfg obj field isf (PS.init stk)).events = true) := by
  set_option maxHeartbeats 2000000 in
  cases hv : field.isVolatile <;>
    cases hi : cfg.supportIRIW <;>
      by_cases hm : mustAssertNull field = true <;>
        by_cases hbt : (field.layoutType = BasicType.T_OBJECT
            ∨ field.layoutType = BasicType.T_VALUETYPE) <;>
          simp_all [do_get_xxx, do_put_xxx, loadMos, storeMos, acquireAfterLoad,
            releaseBeforeAddr, afterFirst, beforeFirst, Event.isLoad, Event.isMemBar,
            Event.isAddrComp, uncommon_trap, List.filterMap_append]

/-- A volatile instance int field (initialized holder, loaded type). -/
def fldC2 : CiField :=
  ⟨false, true, false, false, false, false, false, false, false, false, false,
    true, .T_INT, 16, false, true, none⟩

/-- Closed witness for `c2_volatile_ordering` at a volatile instance int
field: acquire load plus trailing acquire barrier, release store plus
leading release barrier. -/
theorem c2_volatile_ordering_witness :
    fldC2.isConstant = false ∧ fldC2.isFlattened = false ∧ fldC2.isFlattenable = false
    ∧ (loadMos (do_get_xxx cfgA (Node.oop 1) fldC2 true (PS.init [])).events
          = [if fldC2.isVolatile = true then MemOrd.acquire else MemOrd.unordered]
      ∧ (fldC2.isVolatile = true →
          acquireAfterLoad (do_get_xxx cfgA (Node.oop 1) fldC2 true (PS.init [])).events
            = true)
      ∧ storeMos (do_put_xxx cfgA (Node.oop 1) fldC2 true (PS.init [])).events
          = [if fldC2.isVolatile = true then MemOrd.release
             else release_if_reference fldC2.layoutType]
      ∧ (fldC2.isVolatile = true →
          releaseBeforeAddr (do_put_xxx cfgA (Node.oop 1) fldC2 true (PS.init [])).events
            = true)) :=
  ⟨rfl, rfl, rfl, c2_volatile_ordering cfgA (Node.oop 1) fldC2 true [] rfl rfl rfl⟩

/-- Sum of running products of a dimension list against an incoming
fanout: `sumProds [a, b] f = f*a + f*a*b`. The predicted number of
sub-allocations below the outermost array. -/
def sumProds : List Int → Int → Int
  | [], _ => 0
  | d :: rest, f => f * d + sumProds rest (f * d)

/-- Total predicted allocation count of an inline expansion: the outer
array plus the running-product partial sums of the checked dimensions. -/
def predictedCount (ds : List Int) : Int :=
  1 + sumProds ds 1

@[simp] theorem sumProds_nil (f : Int) : sumProds [] f = 0 := rfl

theorem sumProds_nonneg (ds : List Int) (hall : ∀ d ∈ ds, 0 < d) :
    ∀ f : Int, 0 ≤ f → 0 ≤ sumProds ds f := by
  induction ds with
  | nil => intro f _; simp
  | cons d rest ih =>
    intro f hf
    have hd : 0 < d := hall d (by simp)
    have hfd : 0 ≤ f * d := mul_nonneg hf hd.le
    have hrest := ih (fun x hx => hall x (by simp [hx])) (f * d) hfd
    rw [sumProds]
    linarith

/-- Characterization of the heuristic loop (lines 480-490): starting from
positive count and fanout with count within the limit, it returns the
declarative predicted count when every checked dimension is a positive
constant and the total stays within the limit, and 0 otherwise. -/
theorem expandLoop_spec (limit : Int) (ds : List Node) :
    ∀ c f : Int, 1 ≤ c → 1 ≤ f → c ≤ limit →
      expandLoop limit ds c f =
        if ((ds.all fun d => decide (0 < find_int_con d (-1))) = true
            ∧ c + sumProds (ds.map fun d => find_int_con d (-1)) f ≤ limit)
        then c + sumProds (ds.map fun d => find_int_con d (-1)) f
        else 0 := by
  induction ds with
  | nil =>
    intro c f hc hf hcl
    simp [expandLoop, hcl]
  | cons d rest ih =>
    intro c f hc hf hcl
    rw [expandLoop]
    by_cases h0 : find_int_con d (-1) ≤ 0
    · rw [if_pos (Or.inl h0)]
      rw [if_neg]
      intro hcontra
      rcases hcontra with ⟨hall, _⟩
      simp only [List.all_cons, Bool.and_eq_true, decide_eq_true_eq] at hall
      omega
    · push_neg at h0
      have hfd : find_int_con d (-1) ≤ f * find_int_con d (-1) :=
        le_mul_of_one_le_left h0.le hf
      by_cases h2 : limit < c + f * find_int_con d (-1)
      · rw [if_pos (Or.inr (Or.inr h2))]
        rw [if_neg]
        intro hcontra
        rcases hcontra with ⟨hall, hsum⟩
        simp only [List.all_cons, Bool.and_eq_true, decide_eq_true_eq] at hall
        rw [List.map_cons, sumProds] at hsum
        have hrest : 0 ≤ sumProds (rest.map fun d => find_int_con d (-1))
            (f * find_int_con d (-1)) := by
          apply sumProds_nonneg
          · intro x hx
            rcases List.mem_map.mp hx with ⟨y, hy, hxy⟩
            have := hall.2
            rw [List.all_eq_true] at this
            have := this y hy
            simp only [decide_eq_true_eq] at this
            omega
          · positivity
        linarith
      · push_neg at h2
        have hnd : ¬ limit < find_int_con d (-1) := by omega
        rw [if_neg (by push_neg; exact ⟨by omega, by omega, by omega⟩)]
        rw [ih (c + f * find_int_con d (-1)) (f * find_int_con d (-1))
          (by nlinarith) (by nlinarith) h2]
        rw [List.map_cons, sumProds]
        simp only [List.all_cons, Bool.and_eq_true, decide_eq_true_eq]
        by_cases hP : ((rest.all fun d => decide (0 < find_int_con d (-1))) = true
            ∧ c + (f * find_int_con d (-1)
                + sumProds (rest.map fun d => find_int_con d (-1))
                    (f * find_int_con d (-1))) ≤ limit)
        · rw [if_pos ⟨hP.1, by linarith [hP.2]⟩, if_pos ⟨⟨h0, hP.1⟩, hP.2⟩]
          ring
        · rw [if_neg, if_neg]
          · intro hcontra
            exact hP ⟨hcontra.1.2, by linarith [hcontra.2]⟩
          · intro hcontra
            exact hP ⟨hcontra.1, by linarith [hcontra.2]⟩

@[simp] theorem countRuntimeCalls_nil : countRuntimeCalls [] = 0 := rfl

@[simp] theorem countRuntimeCalls_append (a b : List Event) :
    countRuntimeCalls (a ++ b) = countRuntimeCalls a + countRuntimeCalls b := by
  simp [countRuntimeCalls]

@[simp] theorem countRuntimeCalls_cons (e : Event) (l : List Event) :
    countRuntimeCalls (e :: l)
      = (if Event.isRuntimeCall e = true then 1 else 0) + countRuntimeCalls l := by
  simp [countRuntimeCalls, List.filter_cons]
  split <;> simp
  omega

/-- A `List.foldl` whose step preserves a state measure preserves it. -/
theorem foldl_count_preserve {α : Type} (P : PS → Nat) (step : PS → α → PS)
    (l : List α) (h : ∀ s x, P (step s x) = P s) :
    ∀ s : PS, P (l.foldl step s) = P s := by
  induction l with
  | nil => intro s; rfl
  | cons x xs ih => intro s; rw [List.foldl_cons, ih, h]

/-- Inline expansion emits allocations and unordered element stores, but
never an out-of-line runtime call. -/
theorem expand_multianewarray_no_call (lens : List Node) :
    ∀ s : PS, countRuntimeCalls (expand_multianewarray lens s).2.events
      = countRuntimeCalls s.events := by
  induction lens with
  | nil => intro s; simp [expand_multianewarray]
  | cons len rest ih =>
    intro s
    cases rest with
    | nil => simp [expand_multianewarray, Event.isRuntimeCall]
    | cons r rs =>
      rw [expand_multianewarray]
      by_cases hlc : find_int_con len (-1) < 0
      · simp [hlc, Event.isRuntimeCall]
      · simp only [hlc, if_false]
        rw [foldl_count_preserve (fun s => countRuntimeCalls s.events)
          (fun s _ =>
            (expand_multianewarray (r :: rs) s).2.emit
              (.storeOopToArray .unordered (expand_multianewarray (r :: rs) s).1))]
        · simp [Event.isRuntimeCall]
        · intro s x
          simp [ih, Event.isRuntimeCall]

/-- `do_multianewarray` emits no runtime call when it inlines, and exactly
one runtime call otherwise. -/
theorem do_multianewarray_calls (cfg : Config) (nd : Nat) (stk : List Node) :
    countRuntimeCalls (do_multianewarray cfg nd (PS.init stk)).events
      = if multianewarrayInline cfg nd ((stk.take nd).reverse) = true then 0 else 1 := by
  have hfold : ∀ (l : List Node) (s : PS),
      countRuntimeCalls
          (l.foldl (fun s l => s.emit (.storeScalar .T_INT .unordered l false)) s).events
        = countRuntimeCalls s.events := by
    intro l s
    exact foldl_count_preserve (fun s => countRuntimeCalls s.events) _ l
      (by intro s x; simp [Event.isRuntimeCall]) s
  have hfoldr : ∀ (l : List Node) (s : PS),
      countRuntimeCalls
          (l.foldr (fun x s => s.emit (.storeScalar .T_INT .unordered x false)) s).events
        = countRuntimeCalls s.events := by
    intro l
    induction l with
    | nil => intro s; rfl
    | cons x xs ih =>
      intro s
      rw [List.foldr_cons]
      simp [ih, Event.isRuntimeCall]
  rw [do_multianewarray]
  simp only [events_emit, stack_emit, stack_init, events_init]
  split
  · simp_all [expand_multianewarray_no_call, Event.isRuntimeCall]
  · split
    · simp_all [Event.isRuntimeCall]
    · simp_all [hfold, hfoldr, Event.isRuntimeCall]

/-- The inline-expansion condition as the amended claim C3 states it:
rank 1, or every dimension length EXCEPT THE INNERMOST is a known
STRICTLY POSITIVE constant and the predicted allocation count (outer
array plus running-product partial sums) stays within the limit. -/
def amendedInlineCond (limit : Int) (nd : Nat) (lens : List Node) : Bool :=
  nd == 1 ||
    (((lens.take (nd - 1)).all fun d => decide (0 < find_int_con d (-1)))
      && decide (predictedCount ((lens.take (nd - 1)).map fun d => find_int_con d (-1))
          ≤ limit))

/-- The inline-expansion condition exactly as claim C3 words it: rank 1,
or every NON-OUTERMOST dimension length is a known NON-NEGATIVE constant
and the predicted count stays within the limit. -/
def claimC3Cond (limit : Int) (nd : Nat) (lens : List Node) : Bool :=
  nd == 1 ||
    (((lens.drop 1).all fun d => decide (0 ≤ find_int_con d (-1)))
      && decide (predictedCount ((lens.drop 1).map fun d => find_int_con d (-1))
          ≤ limit))

/-- C3 counterexample: rank 2, outermost length NOT a constant, innermost
length the constant 5, default limit. Every non-outermost dimension (just
the innermost, 5) is a known non-negative constant and the predicted
count 1 + 5 = 6 is within the limit 100, so the claim's condition says
inline; the code checks the OUTERMOST dimension (all but the innermost),
finds it non-constant, and emits an out-of-line runtime call. -/
theorem c3_counterexample :
    claimC3Cond (expand_limit cfgA) 2 [Node.intVar 0, Node.intCon 5] = true
    ∧ multianewarrayInline cfgA 2 [Node.intVar 0, Node.intCon 5] = false
    ∧ countRuntimeCalls
        (do_multianewarray cfgA 2 (PS.init [Node.intCon 5, Node.intVar 0])).events = 1
    ∧ ¬(multianewarrayInline cfgA 2 [Node.intVar 0, Node.intCon 5] = true
        ↔ claimC3Cond (expand_limit cfgA) 2 [Node.intVar 0, Node.intCon 5] = true) := by
  decide

/-- C3 (amended): `do_multianewarray` chooses inline expansion exactly
when the rank is 1, or every dimension length except the INNERMOST is a
known STRICTLY POSITIVE constant and the predicted sub-allocation count
(1 plus the running-product partial sums) stays within the configured
limit (minimum of `MultiArrayExpandLimit` and 100, default 100);
otherwise it emits exactly one out-of-line runtime call, and when it
inlines it emits none. -/
theorem c3_inline_decision (cfg : Config) (nd : Nat) (stk : List Node)
    (hlim : 1 ≤ expand_limit cfg) :
    multianewarrayInline cfg nd ((stk.take nd).reverse)
        = amendedInlineCond (expand_limit cfg) nd ((stk.take nd).reverse)
    ∧ countRuntimeCalls (do_multianewarray cfg nd (PS.init stk)).events
        = (if multianewarrayInline cfg nd ((stk.take nd).reverse) = true then 0 else 1) := by
  refine ⟨?_, do_multianewarray_calls cfg nd stk⟩
  simp only [multianewarrayInline, amendedInlineCond, predictedCount]
  rw [expandLoop_spec (expand_limit cfg) (((stk.take nd).reverse).take (nd - 1)) 1 1
    le_rfl le_rfl hlim]
  set A := (((stk.take nd).reverse).take (nd - 1)).all
    (fun d => decide (0 < find_int_con d (-1))) with hA
  set S := sumProds ((((stk.take nd).reverse).take (nd - 1)).map
    fun d => find_int_con d (-1)) 1 with hS
  by_cases hP : (A = true ∧ 1 + S ≤ expand_limit cfg)
  · rw [if_pos hP]
    have hnn : 0 ≤ S := by
      rw [hS]
      apply sumProds_nonneg
      · intro x hx
        rcases List.mem_map.mp hx with ⟨y, hy, hxy⟩
        have h1 := hP.1
        rw [hA, List.all_eq_true] at h1
        have := h1 y hy
        simp only [decide_eq_true_eq] at this
        omega
      · omega
    congr 1
    rw [hP.1, Bool.true_and]
    rw [decide_eq_true hP.2, decide_eq_true (show (1 : Int) ≤ 1 + S by linarith)]
    rfl
  · rw [if_neg hP]
    congr 1
    have hr : (A && decide (1 + S ≤ expand_limit cfg)) = false := by
      rcases Decidable.not_and_iff_or_not.mp hP with h | h
      · cases hb : A
        · rfl
        · exact absurd hb h
      · rw [decide_eq_false h, Bool.and_false]
    rw [hr, decide_eq_false (by omega : ¬ (1 : Int) ≤ 0), Bool.false_and]

/-- Closed witness for `c3_inline_decision`: rank 3 with dimensions
[2, 3, non-constant] inlines (2*3 = 6 sub-arrays plus the outer array,
within the limit) and emits no runtime call. -/
theorem c3_inline_decision_witness :
    (1 ≤ expand_limit cfgA)
    ∧ (multianewarrayInline cfgA 3
          (([Node.intVar 9, Node.intCon 3, Node.intCon 2].take 3).reverse)
        = amendedInlineCond (expand_limit cfgA) 3
          (([Node.intVar 9, Node.intCon 3, Node.intCon 2].take 3).reverse)
      ∧ countRuntimeCalls
          (do_multianewarray cfgA 3
            (PS.init [Node.intVar 9, Node.intCon 3, Node.intCon 2])).events
        = (if multianewarrayInline cfgA 3
              (([Node.intVar 9, Node.intCon 3, Node.intCon 2].take 3).reverse) = true
           then 0 else 1)) :=
  ⟨by decide,
    c3_inline_decision cfgA 3 [Node.intVar 9, Node.intCon 3, Node.intCon 2] (by decide)⟩

/-- A static volatile int field with an initialized holder. -/
def fldC4 : CiField :=
  ⟨true, true, false, false, false, false, false, false, false, false, false,
    true, .T_INT, 12, false, true, none⟩

/-- C4 counterexample: a put of a STATIC volatile field. The release
store and the trailing fat barrier are emitted, but the per-path
"wrote a volatile field" flag is NOT set: the source guards
`set_wrote_volatile(true)` with `if (is_field)` (line 355), so only
instance puts record it, contradicting the claim's "(static or
instance)". -/
theorem c4_counterexample :
    fldC4.isVolatile = true
    ∧ storeMos (do_field_access cfgA false false fldC4 mC1
        (PS.init [Node.intCon 7])).events = [MemOrd.release]
    ∧ fatBarAfterStore (do_field_access cfgA false false fldC4 mC1
        (PS.init [Node.intCon 7])).events = true
    ∧ ¬((do_field_access cfgA false false fldC4 mC1
        (PS.init [Node.intCon 7])).wroteVolatile = true) := by
  decide

/-- C4 (amended): after a volatile put that reaches the store, the fat
(volatile) barrier is emitted after the store exactly when the platform
does not use the IRIW pre-barrier configuration, and the per-path
"wrote a volatile field" flag is set exactly when the put is an
INSTANCE-field put (`is_field`); a static volatile put leaves it clear. -/
theorem c4_volatile_put_barrier_flag (cfg : Config) (obj : Node) (field : CiField)
    (isf : Bool) (stk : List Node) (hv : field.isVolatile = true)
    (hfa : field.isFlattenable = false) :
    (fatBarAfterStore (do_put_xxx cfg obj field isf (PS.init stk)).events = true
      ↔ cfg.supportIRIW = false)
    ∧ (do_put_xxx cfg obj field isf (PS.init stk)).wroteVolatile = isf := by
  cases hi : cfg.supportIRIW <;>
    cases hifl : field.isFlattened <;>
      by_cases hbt : (field.layoutType = BasicType.T_OBJECT
          ∨ field.layoutType = BasicType.T_VALUETYPE) <;>
        simp_all [do_put_xxx, fatBarAfterStore, afterFirst, Event.isStore, Event.isMemBar,
          uncommon_trap]

/-- Closed witness for `c4_volatile_put_barrier_flag`: an instance
volatile int put on a non-IRIW platform gets the fat barrier and sets the
flag. -/
theorem c4_volatile_put_barrier_flag_witness :
    fldC2.isVolatile = true ∧ fldC2.isFlattenable = false
    ∧ ((fatBarAfterStore (do_put_xxx cfgA (Node.oop 1) fldC2 true
          (PS.init [Node.intCon 3])).events = true
        ↔ cfgA.supportIRIW = false)
      ∧ (do_put_xxx cfgA (Node.oop 1) fldC2 true
          (PS.init [Node.intCon 3])).wroteVolatile = true) :=
  ⟨rfl, rfl, c4_volatile_put_barrier_flag cfgA (Node.oop 1) fldC2 true
    [Node.intCon 3] rfl rfl⟩

/-- An instance flattenable (and flattened) value-type field with loaded
type and initialized holder. -/
def fldC5 : CiField :=
  ⟨false, false, false, false, true, true, false, false, false, false, false,
    true, .T_VALUETYPE, 20, false, true, none⟩

/-- C5 counterexample: a put of a flattenable field whose value is the
null literal — NOT a composite node, and provably null, hence certainly
not "provably non-null". The source (lines 320-328) emits the defensive
null-check trap UNCONDITIONALLY on this branch, so the trap fires
although the value is not provably non-null, refuting the claim's
"exactly when the value is provably non-null". -/
theorem c5_counterexample :
    fldC5.isFlattenable = true
    ∧ Node.nullCon.isValueType = false
    ∧ Node.provablyNonNull Node.nullCon = false
    ∧ hasTrapR .nullCheck
        (do_put_xxx cfgA (Node.oop 1) fldC5 true (PS.init [Node.nullCon])).events = true
    ∧ (do_put_xxx cfgA (Node.oop 1) fldC5 true (PS.init [Node.nullCon])).stopped = true
    ∧ ¬(hasTrapR .nullCheck
          (do_put_xxx cfgA (Node.oop 1) fldC5 true (PS.init [Node.nullCon])).events = true
        ↔ Node.provablyNonNull Node.nullCon = true) := by
  decide

/-- C5 (amended): for every put of a flattenable value-type field whose
popped value is not a composite node, the defensive null-check trap is
emitted UNCONDITIONALLY (the value can only be a null literal there, per
the source's debug assertion at line 322), the path terminates, and no
store is emitted. -/
theorem c5_flattenable_null_store (cfg : Config) (obj : Node) (field : CiField)
    (isf : Bool) (v : Node) (stk : List Node)
    (hbt : field.layoutType = .T_VALUETYPE) (hfa : field.isFlattenable = true)
    (hv : v.isValueType = false) :
    hasTrapR .nullCheck
        (do_put_xxx cfg obj field isf (PS.init (v :: stk))).events = true
    ∧ (do_put_xxx cfg obj field isf (PS.init (v :: stk))).stopped = true
    ∧ (do_put_xxx cfg obj field isf (PS.init (v :: stk))).events.any
        Event.isStore = false := by
  cases hvol : field.isVolatile <;>
    simp_all [do_put_xxx, uncommon_trap, Event.isTrapR, Event.isStore, type2size]

/-- Closed witness for `c5_flattenable_null_store` at `fldC5` with the
null literal as the stored value. -/
theorem c5_flattenable_null_store_witness :
    fldC5.layoutType = .T_VALUETYPE ∧ fldC5.isFlattenable = true
    ∧ Node.nullCon.isValueType = false
    ∧ (hasTrapR .nullCheck
          (do_put_xxx cfgA (Node.oop 1) fldC5 true (PS.init [Node.nullCon])).events = true
      ∧ (do_put_xxx cfgA (Node.oop 1) fldC5 true (PS.init [Node.nullCon])).stopped = true
      ∧ (do_put_xxx cfgA (Node.oop 1) fldC5 true (PS.init [Node.nullCon])).events.any
          Event.isStore = false) :=
  ⟨rfl, rfl, rfl,
    c5_flattenable_null_store cfgA (Node.oop 1) fldC5 true Node.nullCon [] rfl rfl rfl⟩

theorem find_int_con_of_not_con (l : Node) (h : ∀ n : Int, l ≠ Node.intCon n) (d : Int) :
    find_int_con l d = d := by
  cases l <;> first
    | rfl
    | exact absurd rfl (h _)

/-- C6 (confirmed): a rank-2 `multianewarray` whose outermost length is
not a known constant emits exactly one runtime call, to the rank-2 entry
point, and the pushed result's refined type is non-null and exact with no
known array size and unsharpened element types; on the out-of-line path
with a constant outermost length, the refined type carries exactly that
size (and element types stay unsharpened). -/
theorem c6_rank2_call_type (cfg : Config) :
    (∀ (l0 l1 : Node) (stk : List Node), (∀ n : Int, l0 ≠ Node.intCon n) →
      countRuntimeCalls
          (do_multianewarray cfg 2 (PS.init (l1 :: l0 :: stk))).events = 1
      ∧ runtimeCallRanks
          (do_multianewarray cfg 2 (PS.init (l1 :: l0 :: stk))).events = [2]
      ∧ ∃ t : AryType,
          castTypes (do_multianewarray cfg 2 (PS.init (l1 :: l0 :: stk))).events = [t]
          ∧ t.notNull = true ∧ t.exact = true ∧ t.hasKnownSize = false
          ∧ t.elemSharpened = false)
    ∧ (∀ (n : Int) (l1 : Node) (stk : List Node),
        multianewarrayInline cfg 2 [Node.intCon n, l1] = false →
        castTypes
            (do_multianewarray cfg 2 (PS.init (l1 :: Node.intCon n :: stk))).events
          = [⟨true, true, some (n, n), false⟩]) := by
  constructor
  · intro l0 l1 stk h0
    have hdec : multianewarrayInline cfg 2 [l0, l1] = false := by
      simp [multianewarrayInline, expandLoop, find_int_con_of_not_con l0 h0]
    rw [do_multianewarray]
    simp only [stack_emit, stack_init, List.take_cons, List.take_zero, List.reverse_cons,
      List.reverse_nil, List.nil_append, List.cons_append, List.take_succ_cons]
    rw [hdec]
    cases l0 <;>
      simp_all [castTypes, runtimeCallRanks, nodeIntRange, Event.isRuntimeCall,
        AryType.hasKnownSize, List.filterMap_append]
  · intro n l1 stk hdec
    rw [do_multianewarray]
    simp only [stack_emit, stack_init, List.take_succ_cons, List.take_cons, List.take_zero,
      List.reverse_cons, List.reverse_nil, List.nil_append, List.cons_append]
    rw [hdec]
    simp [castTypes, nodeIntRange, List.filterMap_append]

/-- Closed witness for `c6_rank2_call_type`: a non-constant outermost
length (rank-2 call with unknown size), and the out-of-line path with
constant outermost length 200 > limit (type carries exact size 200). -/
theorem c6_rank2_call_type_witness :
    (countRuntimeCalls
        (do_multianewarray cfgA 2
          (PS.init [Node.intCon 5, Node.intVar 0])).events = 1
      ∧ runtimeCallRanks
          (do_multianewarray cfgA 2
            (PS.init [Node.intCon 5, Node.intVar 0])).events = [2]
      ∧ ∃ t : AryType,
          castTypes (do_multianewarray cfgA 2
            (PS.init [Node.intCon 5, Node.intVar 0])).events = [t]
          ∧ t.notNull = true ∧ t.exact = true ∧ t.hasKnownSize = false
          ∧ t.elemSharpened = false)
    ∧ castTypes
        (do_multianewarray cfgA 2
          (PS.init [Node.intCon 5, Node.intCon 200])).events
      = [⟨true, true, some (200, 200), false⟩] :=
  ⟨(c6_rank2_call_type cfgA).1 (Node.intVar 0) (Node.intCon 5) []
      (fun n h => Node.noConfusion h),
    (c6_rank2_call_type cfgA).2 200 (Node.intCon 5) [] (by decide)⟩

/-- C7 (confirmed): a get of a field whose declared object type is not
loaded builds the load at the bottom/unknown type and performs the
deferred non-null assertion with the bci set to the NEXT instruction
index, restoring the current index right after; the assertion never runs
at the current index (the two indices differ), and it is the only null
assertion emitted. Non-flattened is assumed since only value-type layouts
are ever flattened (source assertion at line 335). -/
theorem c7_deferred_null_assert (cfg : Config) (obj : Node) (field : CiField)
    (isf : Bool) (stk : List Node)
    (hbt : field.layoutType = .T_OBJECT) (hnl : field.typeIsLoaded = false)
    (hfl : field.isFlattened = false) (hbci : cfg.curBci < cfg.nextBci) :
    loadTys (do_get_xxx cfg obj field isf (PS.init stk)).events = [LType.bottomInst]
    ∧ hasAssertSeq cfg.nextBci cfg.curBci
        (do_get_xxx cfg obj field isf (PS.init stk)).events = true
    ∧ countNullAsserts (do_get_xxx cfg obj field isf (PS.init stk)).events = 1
    ∧ cfg.nextBci ≠ cfg.curBci := by
  refine ⟨?_, ?_, ?_, by omega⟩ <;>
    (cases hv : field.isVolatile <;>
      cases hi : cfg.supportIRIW <;>
        cases hh : (PS.init stk).heapGet (obj, field.offset) <;>
          simp_all [do_get_xxx, loadTys, loadResultType, mustAssertNull, hasAssertSeq,
            headIsAssertSeq, countNullAsserts, List.filterMap_append,
            List.filter_append])

/-- An instance field of unloaded object type (initialized holder). -/
def fldC7 : CiField :=
  ⟨false, false, false, false, false, false, false, false, false, false, false,
    false, .T_OBJECT, 28, false, true, none⟩

/-- Closed witness for `c7_deferred_null_assert` at `fldC7` under `cfgA`
(current bci 10, next bci 13). -/
theorem c7_deferred_null_assert_witness :
    fldC7.layoutType = .T_OBJECT ∧ fldC7.typeIsLoaded = false
    ∧ fldC7.isFlattened = false ∧ cfgA.curBci < cfgA.nextBci
    ∧ (loadTys (do_get_xxx cfgA (Node.oop 1) fldC7 true (PS.init [])).events
          = [LType.bottomInst]
      ∧ hasAssertSeq cfgA.nextBci cfgA.curBci
          (do_get_xxx cfgA (Node.oop 1) fldC7 true (PS.init [])).events = true
      ∧ countNullAsserts (do_get_xxx cfgA (Node.oop 1) fldC7 true (PS.init [])).events = 1
      ∧ cfgA.nextBci ≠ cfgA.curBci) :=
  ⟨rfl, rfl, rfl, by decide,
    c7_deferred_null_assert cfgA (Node.oop 1) fldC7 true [] rfl rfl rfl (by decide)⟩

/-- C8 (confirmed): `do_newarray` of an unloaded array class emits
exactly the "unloaded"/"reinterpret" trap, and of a loaded array class
whose element class is an uninitialized value type exactly the
"uninitialized"/"reinterpret" trap; in both cases the path terminates, no
allocation is emitted, nothing is pushed and the length operand is not
popped (the stack is unchanged). -/
theorem c8_newarray_traps (ak : ArrayKlassDesc) (stk : List Node) :
    (ak.isLoaded = false →
      (do_newarray ak (PS.init stk)).events = [Event.trap .unloaded .reinterpret]
      ∧ (do_newarray ak (PS.init stk)).stopped = true
      ∧ (do_newarray ak (PS.init stk)).stack = stk)
    ∧ (ak.isLoaded = true → ak.elemIsValuetype = true → ak.elemVtInitialized = false →
      (do_newarray ak (PS.init stk)).events = [Event.trap .uninitialized .reinterpret]
      ∧ (do_newarray ak (PS.init stk)).stopped = true
      ∧ (do_newarray ak (PS.init stk)).stack = stk) := by
  cases hl : ak.isLoaded <;>
    cases he : ak.elemIsValuetype <;>
      cases hi : ak.elemVtInitialized <;>
        simp_all [do_newarray, uncommon_trap]

/-- Closed witness for `c8_newarray_traps`: the unloaded case and the
uninitialized-value-type-element case, each with a one-element stack that
stays untouched. -/
theorem c8_newarray_traps_witness :
    ((do_newarray ⟨false, false, false⟩ (PS.init [Node.intCon 3])).events
        = [Event.trap .unloaded .reinterpret]
      ∧ (do_newarray ⟨false, false, false⟩ (PS.init [Node.intCon 3])).stopped = true
      ∧ (do_newarray ⟨false, false, false⟩ (PS.init [Node.intCon 3])).stack
        = [Node.intCon 3])
    ∧ ((do_newarray ⟨true, true, false⟩ (PS.init [Node.intCon 3])).events
        = [Event.trap .uninitialized .reinterpret]
      ∧ (do_newarray ⟨true, true, false⟩ (PS.init [Node.intCon 3])).stopped = true
      ∧ (do_newarray ⟨true, true, false⟩ (PS.init [Node.intCon 3])).stack
        = [Node.intCon 3]) :=
  ⟨(c8_newarray_traps ⟨false, false, false⟩ [Node.intCon 3]).1 rfl,
    (c8_newarray_traps ⟨true, true, false⟩ [Node.intCon 3]).2 rfl rfl rfl⟩

/-- `do_get_xxx` only appends events. -/
theorem do_get_xxx_events_prefix (cfg : Config) (obj : Node) (field : CiField)
    (isf : Bool) (s : PS) :
    s.events <+: (do_get_xxx cfg obj field isf s).events := by
  rw [do_get_xxx]
  repeat' split
  all_goals cases hh : s.heapGet (obj, field.offset)
  all_goals simp [hh, List.prefix_append]

/-- `do_put_xxx` only appends events. -/
theorem do_put_xxx_events_prefix (cfg : Config) (obj : Node) (field : CiField)
    (isf : Bool) (s : PS) :
    s.events <+: (do_put_xxx cfg obj field isf s).events := by
  rw [do_put_xxx]
  repeat' split
  all_goals simp [uncommon_trap, List.prefix_append]

theorem events_head_get (cfg : Config) (obj : Node) (field : CiField) (isf : Bool)
    (s : PS) (e : Event) (h : s.events = [e]) :
    (do_get_xxx cfg obj field isf s).events.head? = some e := by
  obtain ⟨t, ht⟩ := do_get_xxx_events_prefix cfg obj field isf s
  rw [← ht, h]
  rfl

theorem events_head_put (cfg : Config) (obj : Node) (field : CiField) (isf : Bool)
    (s : PS) (e : Event) (h : s.events = [e]) :
    (do_put_xxx cfg obj field isf s).events.head? = some e := by
  obtain ⟨t, ht⟩ := do_put_xxx_events_prefix cfg obj field isf s
  rw [← ht, h]
  rfl

theorem nullCheckBeforeAddr_of_head (l : List Event) (n : Node)
    (h : l.head? = some (Event.nullCheckEv n)) : nullCheckBeforeAddr l = true := by
  cases l with
  | nil => simp at h
  | cons a t =>
    simp only [List.head?_cons, Option.some.injEq] at h
    subst h
    simp [nullCheckBeforeAddr, beforeFirst, Event.isAddrComp, Event.isNullCheck,
      List.takeWhile_cons]

/-- C9 (confirmed): for every instance field get or put (on the paths
that reach the receiver, i.e. no kind-mismatch / call-site-target trap
and a non-value-type holder), the receiver peeked at the proper depth is
null-checked before any address computation; and if the receiver is
provably null the path terminates with no load, no store, and the stack
unchanged. -/
theorem c9_receiver_null_check (cfg : Config) (is_get : Bool) (field : CiField)
    (method : CiMethod) (stk : List Node)
    (hvt : field.holderIsValuetype = false) (hst : field.isStatic = false)
    (hcs : field.isCallSiteTarget = false) :
    nullCheckBeforeAddr
        (do_field_access cfg is_get true field method (PS.init stk)).events = true
    ∧ ((PS.init stk).peek (if is_get = true then 0 else type2size field.layoutType)
          = Node.nullCon →
        (do_field_access cfg is_get true field method (PS.init stk)).stopped = true
        ∧ (do_field_access cfg is_get true field method (PS.init stk)).stack = stk
        ∧ (do_field_access cfg is_get true field method (PS.init stk)).events.any
            Event.isLoad = false
        ∧ (do_field_access cfg is_get true field method (PS.init stk)).events.any
            Event.isStore = false) := by
  have heq : do_field_access cfg is_get true field method (PS.init stk)
      = (let obj := (PS.init stk).peek
            (if is_get = true then 0 else type2size field.layoutType)
         let s := null_check obj (PS.init stk)
         if s.stopped then s
         else if is_get = true then do_get_xxx cfg obj field true s.pop.2
         else
           let s := do_put_xxx cfg obj field true s
           if s.stopped then s else s.pop.2) := by
    rw [do_field_access]
    rw [if_neg (by simp [hvt]), if_neg (by simp [hst]), if_neg (by simp),
      if_neg (by simp [hcs]), if_pos rfl]
  constructor
  · rw [heq]
    by_cases hnull : (PS.init stk).peek
        (if is_get = true then 0 else type2size field.layoutType) = Node.nullCon
    · simp [null_check, hnull, nullCheckBeforeAddr, beforeFirst, Event.isAddrComp,
        Event.isNullCheck]
    · simp only [null_check, hnull, ite_false, if_false, stopped_emit, stopped_init,
        Bool.false_eq_true]
      cases hg : is_get
      · simp only [Bool.false_eq_true, ite_false, if_false]
        split
        · exact nullCheckBeforeAddr_of_head _
            ((PS.init stk).peek (type2size field.layoutType))
            (events_head_put cfg _ field true _
              (Event.nullCheckEv ((PS.init stk).peek (type2size field.layoutType)))
              (by simp))
        · rw [events_pop]
          exact nullCheckBeforeAddr_of_head _
            ((PS.init stk).peek (type2size field.layoutType))
            (events_head_put cfg _ field true _
              (Event.nullCheckEv ((PS.init stk).peek (type2size field.layoutType)))
              (by simp))
      · simp only [ite_true]
        exact nullCheckBeforeAddr_of_head _ ((PS.init stk).peek 0)
          (events_head_get cfg _ field true _
            (Event.nullCheckEv ((PS.init stk).peek 0)) (by simp))
  · intro hpeek
    rw [heq]
    simp [null_check, hpeek, Event.isLoad, Event.isStore]

/-- Closed witness for `c9_receiver_null_check`: a get of an instance int
field with a provably-null receiver on the stack terminates after the
null check with nothing emitted and the stack intact. -/
theorem c9_receiver_null_check_witness :
    fldC7.holderIsValuetype = false ∧ fldC7.isStatic = false
    ∧ fldC7.isCallSiteTarget = false
    ∧ (nullCheckBeforeAddr
          (do_field_access cfgA true true fldC7 mC1 (PS.init [Node.nullCon])).events = true
      ∧ ((PS.init [Node.nullCon]).peek
            (if (true : Bool) = true then 0 else type2size fldC7.layoutType)
            = Node.nullCon →
          (do_field_access cfgA true true fldC7 mC1 (PS.init [Node.nullCon])).stopped = true
          ∧ (do_field_access cfgA true true fldC7 mC1 (PS.init [Node.nullCon])).stack
            = [Node.nullCon]
          ∧ (do_field_access cfgA true true fldC7 mC1
              (PS.init [Node.nullCon])).events.any Event.isLoad = false
          ∧ (do_field_access cfgA true true fldC7 mC1
              (PS.init [Node.nullCon])).events.any Event.isStore = false)) :=
  ⟨rfl, rfl, rfl, c9_receiver_null_check cfgA true fldC7 mC1 [Node.nullCon] rfl rfl rfl⟩

/-- The truncated significand fits in 53 bits. -/
theorem truncMant_lt (n : Nat) : ∀ e : Int, (truncMant n e).1 < 2 ^ 53 := by
  induction n using Nat.strong_induction_on with
  | _ n ih =>
    intro e
    rw [truncMant]
    split
    · simpa using ‹_›
    · exact ih (n / 2) (Nat.div_lt_self (by omega) one_lt_two) (e + 1)

theorem truncMant_eq_self (n : Nat) (e : Int) (h : n < 2 ^ 53) :
    truncMant n e = (n, e) := by
  rw [truncMant, if_pos h]

/-- Canonical-form rounding is idempotent: rounding an already-rounded
value leaves it unchanged. -/
theorem dstore_rounding_idem (v : Node) :
    dstore_rounding (dstore_rounding v) = dstore_rounding v := by
  cases v <;> try rfl
  case dbl m e =>
    simp only [dstore_rounding]
    set p := truncMant m.natAbs e with hp
    have hlt : p.1 < 2 ^ 53 := truncMant_lt m.natAbs e
    have habs : (if m < 0 then -((p.1 : Nat) : Int) else ((p.1 : Nat) : Int)).natAbs
        = p.1 := by
      split <;> simp
    rw [habs, truncMant_eq_self p.1 p.2 hlt]
    congr 1
    split <;> split <;> omega

@[simp] theorem heap_put_finish (cfg : Config) (obj : Node) (field : CiField)
    (isf : Bool) (s : PS) :
    (put_finish cfg obj field isf s).heap = s.heap := by
  unfold put_finish
  repeat' split
  all_goals simp_all

@[simp] theorem heapGet_put_finish (cfg : Config) (obj : Node) (field : CiField)
    (isf : Bool) (s : PS) (k : Node × Nat) :
    (put_finish cfg obj field isf s).heapGet k = s.heapGet k := by
  unfold put_finish
  repeat' split
  all_goals simp_all [PS.heapGet, PS.emit]

/-- The instance-field path of `do_field_access` (lines 129-149), once the
value-type-holder, kind-mismatch, uninitialized-holder and
call-site-target branches are settled. -/
theorem do_field_access_instance_eq (cfg : Config) (is_get : Bool) (field : CiField)
    (method : CiMethod) (s : PS) (hvt : field.holderIsValuetype = false)
    (hst : field.isStatic = false) (hcs : field.isCallSiteTarget = false) :
    do_field_access cfg is_get true field method s
      = (let obj := s.peek (if is_get = true then 0 else type2size field.layoutType)
         let s1 := null_check obj s
         if s1.stopped then s1
         else if is_get = true then do_get_xxx cfg obj field true s1.pop.2
         else
           let s2 := do_put_xxx cfg obj field true s1
           if s2.stopped then s2 else s2.pop.2) := by
  rw [do_field_access]
  rw [if_neg (by simp [hvt]), if_neg (by simp [hst]), if_neg (by simp),
    if_neg (by simp [hcs]), if_pos rfl]

/-- C10 (confirmed): a put of a double-typed field stores exactly the
canonically-rounded popped value; a get of the same field on the same
path immediately after yields that rounded value; and the rounding is
idempotent on every node. -/
theorem c10_double_store_round_trip (cfg : Config) (field : CiField)
    (method : CiMethod) (recv : Node) (m e : Int) (rest : List Node)
    (hbt : field.layoutType = .T_DOUBLE) (hst : field.isStatic = false)
    (hvt : field.holderIsValuetype = false) (hcs : field.isCallSiteTarget = false)
    (hcon : field.isConstant = false) (hfl : field.isFlattened = false)
    (hrecv : recv ≠ Node.nullCon) :
    storeVals (do_field_access cfg false true field method
        (PS.init (Node.halfSlot :: Node.dbl m e :: recv :: rest))).events
      = [dstore_rounding (Node.dbl m e)]
    ∧ (do_field_access cfg true true field method
        ((do_field_access cfg false true field method
          (PS.init (Node.halfSlot :: Node.dbl m e :: recv :: rest))).push recv)).stack
      = Node.halfSlot :: dstore_rounding (Node.dbl m e) :: rest
    ∧ (∀ v : Node, dstore_rounding (dstore_rounding v) = dstore_rounding v) := by
  refine ⟨?_, ?_, fun v => dstore_rounding_idem v⟩ <;>
    (rw [do_field_access_instance_eq cfg false field method _ hvt hst hcs]
     try rw [do_field_access_instance_eq cfg true field method _ hvt hst hcs]
     cases hv : field.isVolatile <;>
       cases hi : cfg.supportIRIW <;>
         simp [do_put_xxx, do_get_xxx, null_check, push_node, storeVals, type2size,
           PS.peek, List.getD, hbt, hst, hvt, hcs, hcon, hfl, hrecv, hv, hi,
           List.filterMap_append])

/-- A plain instance double field with loaded type. -/
def fldC10 : CiField :=
  ⟨false, false, false, false, false, false, false, false, false, false, false,
    true, .T_DOUBLE, 24, false, true, none⟩

/-- Closed witness for `c10_double_store_round_trip`: storing the
extended-precision dyadic 2^60 + 1 rounds it to 2^52 * 2^8; loading it
back on the same path yields exactly that canonical value. -/
theorem c10_double_store_round_trip_witness :
    fldC10.layoutType = .T_DOUBLE ∧ fldC10.isConstant = false
    ∧ (Node.oop 3) ≠ Node.nullCon
    ∧ (storeVals (do_field_access cfgA false true fldC10 mC1
          (PS.init [Node.halfSlot, Node.dbl (2 ^ 60 + 1) 0, Node.oop 3])).events
        = [dstore_rounding (Node.dbl (2 ^ 60 + 1) 0)]
      ∧ (do_field_access cfgA true true fldC10 mC1
          ((do_field_access cfgA false true fldC10 mC1
            (PS.init [Node.halfSlot, Node.dbl (2 ^ 60 + 1) 0, Node.oop 3])).push
              (Node.oop 3))).stack
        = Node.halfSlot :: dstore_rounding (Node.dbl (2 ^ 60 + 1) 0) :: []
      ∧ (∀ v : Node, dstore_rounding (dstore_rounding v) = dstore_rounding v)) :=
  ⟨rfl, rfl, fun h => Node.noConfusion h,
    c10_double_store_round_trip cfgA fldC10 mC1 (Node.oop 3) (2 ^ 60 + 1) 0 []
      rfl rfl rfl rfl rfl rfl (fun h => Node.noConfusion h)⟩

end Parse3
